import Mathlib

/-!
Verification development for the simplyfire Firestore convenience layer.

The definitions below are shallow embeddings of the TypeScript sources:

* `src/packages/ngx/utils/arrays.ts` (`arrayToChunks`)
* `src/packages/ngx/db/AbstractFirestoreApi.ts` (`BATCH_MAX_WRITES`)
* `src/packages/ngx/db/QueryBuilder.ts` (`QueryBuilder.build`,
  `QueryBuilder.buildQueryForCloud`)
* `src/unnamed/part_002` (the `QueryBuilder` variant with `exec` /
  `execQueryForCloud`)
* `src/packages/ngx/services/firestore.service.ts` (two `FirestoreService`
  variants; the second one in the file is the current one)
* `src/packages/lib/functions/firestore.ts` (`FirestoreCloudService`)
* `src/unnamed/part_006` (the older `FirestoreCloudService`)

JavaScript objects are modelled as association lists with first-match lookup
(`Body`), the document store as an association list from paths to bodies,
and the server-timestamp sentinel as a `Value.tsv t` whose `t` is the commit
time of the run under consideration.  Promises and awaiting are modelled by
explicit event traces where a claim is about scheduling.
-/

/-- Field values appearing in document bodies: strings and resolved
server timestamps (the sentinel resolved at commit time `t`). -/
inductive Value where
  | str : String → Value
  | tsv : Nat → Value
deriving DecidableEq, Repr

/-- JavaScript truthiness of a field value: the empty string is falsy,
every other modelled value is truthy. -/
def truthyV : Value → Bool
  | Value.str s => !(s == "")
  | Value.tsv _ => true

/-- Template-literal stringification of a value. -/
def valToString : Value → String
  | Value.str s => s
  | Value.tsv n => toString n

/-- Association-list lookup, first match wins (models JS property access,
where an object has at most one entry per key). -/
def alookup {α : Type} : List (String × α) → String → Option α
  | [], _ => none
  | (k, v) :: rest, key => if k = key then some v else alookup rest key

/-- Removal of every entry with the given key (models `delete obj[key]` and
the rest-spread that drops a destructured property). -/
def aerase {α : Type} (l : List (String × α)) (key : String) : List (String × α) :=
  l.filter (fun kv => !(kv.1 == key))

/-- Key assignment (models `obj[key] = v`). -/
def aset {α : Type} (l : List (String × α)) (key : String) (v : α) : List (String × α) :=
  aerase l key ++ [(key, v)]

theorem alookup_append {α : Type} (a b : List (String × α)) (k : String) :
    alookup (a ++ b) k = ((alookup a k).rec (alookup b k) (fun v => some v)) := by
  induction a with
  | nil => simp [alookup]
  | cons kv rest ih =>
    by_cases h : kv.1 = k
    · simp [alookup, h]
    · simpa [alookup, h] using ih

theorem alookup_filter_none {α : Type} (p : String × α → Bool)
    (l : List (String × α)) (k : String) (h : ∀ b : α, p (k, b) = false) :
    alookup (l.filter p) k = none := by
  induction l with
  | nil => simp [alookup]
  | cons kv rest ih =>
    obtain ⟨a, b⟩ := kv
    by_cases hak : a = k
    · rw [List.filter_cons_of_neg (by rw [hak]; simp [h b]), ih]
    · cases hp : p (a, b)
      · rw [List.filter_cons_of_neg (by simp [hp]), ih]
      · rw [List.filter_cons_of_pos hp]
        simpa [alookup, hak] using ih

theorem alookup_filter_keep {α : Type} (p : String × α → Bool)
    (l : List (String × α)) (k : String) (h : ∀ b : α, p (k, b) = true) :
    alookup (l.filter p) k = alookup l k := by
  induction l with
  | nil => simp
  | cons kv rest ih =>
    obtain ⟨a, b⟩ := kv
    by_cases hak : a = k
    · rw [List.filter_cons_of_pos (by rw [hak]; exact h b)]
      simp [alookup, hak]
    · cases hp : p (a, b)
      · rw [List.filter_cons_of_neg (by simp [hp])]
        simp [alookup, hak, ih]
      · rw [List.filter_cons_of_pos hp]
        simp [alookup, hak, ih]

theorem alookup_aerase {α : Type} (l : List (String × α)) (key k : String) :
    alookup (aerase l key) k = if k = key then none else alookup l k := by
  by_cases hk : k = key
  · subst hk
    rw [if_pos rfl]
    exact alookup_filter_none _ l k (fun b => by simp)
  · rw [if_neg hk]
    exact alookup_filter_keep _ l k (fun b => by simp [hk])

theorem alookup_aset_self {α : Type} (l : List (String × α)) (key : String) (v : α) :
    alookup (aset l key v) key = some v := by
  rw [aset, alookup_append, alookup_aerase]
  simp [alookup]

theorem alookup_aset_ne {α : Type} (l : List (String × α)) (key k : String) (v : α)
    (h : k ≠ key) : alookup (aset l key v) k = alookup l k := by
  rw [aset, alookup_append, alookup_aerase, if_neg h]
  cases hl : alookup l k with
  | none =>
    have hne : ¬ key = k := fun hh => h hh.symm
    simp [alookup, hne]
  | some w => simp

/-- Document bodies: loosely-typed field maps. -/
abbrev Body := List (String × Value)

/-- Field lookup on a body. -/
def getField (b : Body) (key : String) : Option Value := alookup b key

/-- Field removal on a body. -/
def eraseField (b : Body) (key : String) : Body := aerase b key

/-- Field assignment on a body. -/
def setField (b : Body) (key : String) (v : Value) : Body := aset b key v

/-- Merge of an overlay body into a base body: overlay fields win, base
fields without an overlay entry survive.  Models both `Object.assign` and
the field-merge semantics of a set-with-merge write. -/
def mergeBody (base overlay : Body) : Body :=
  base.filter (fun kv => (alookup overlay kv.1).isNone) ++ overlay

theorem getField_mergeBody (base overlay : Body) (k : String) :
    getField (mergeBody base overlay) k =
      ((getField overlay k).rec (getField base k) (fun v => some v)) := by
  unfold getField mergeBody
  rw [alookup_append]
  cases ho : alookup overlay k with
  | some v =>
    have hnone : alookup (base.filter (fun kv => (alookup overlay kv.1).isNone)) k
        = none :=
      alookup_filter_none _ base k (fun b => by simp [ho])
    simp [hnone, ho]
  | none =>
    have hkeep : alookup (base.filter (fun kv => (alookup overlay kv.1).isNone)) k
        = alookup base k :=
      alookup_filter_keep _ base k (fun b => by simp [ho])
    rw [hkeep]
    cases hb : alookup base k <;> simp [ho]

/-- Document store: association from document paths to bodies. -/
abbrev Store := List (String × Body)

/-- Document lookup by path. -/
def getDoc (s : Store) (path : String) : Option Body := alookup s path

/-- Raw replacement of the document at a path (create-or-overwrite). -/
def storePut (s : Store) (path : String) (b : Body) : Store := aset s path b

/-- Set-with-merge write (`set(ref, payload, { merge: true })`): the payload
is merged into the existing body, or creates the document if absent. -/
def setDocMerge (s : Store) (path : String) (payload : Body) : Store :=
  match getDoc s path with
  | some old => storePut s path (mergeBody old payload)
  | none => storePut s path payload

-- ---------------------------------------------------------------------------
-- src/packages/ngx/db/AbstractFirestoreApi.ts and src/packages/ngx/utils/arrays.ts
-- ---------------------------------------------------------------------------

/-- Maximum number of writes that can be passed to a commit operation,
from `AbstractFirestoreApi`. -/
def BATCH_MAX_WRITES : Nat := 500

/-- Repeated `splice(0, size)` on a working copy of the list, executed
`n` times; each step removes the first `size` elements. -/
def chunked {α : Type} (size : Nat) : Nat → List α → List (List α)
  | 0, _ => []
  | n + 1, l => l.take size :: chunked size n (l.drop size)

/-- Embedding of `arrayToChunks` from `arrays.ts`: the source allocates an
array of length `Math.ceil(list.length / size)` and maps each slot to
`list.splice(0, size)` on a copy of the input.  For a positive `size`,
`Math.ceil(list.length / size)` is `(list.length + size - 1) / size` in
natural-number division. -/
def arrayToChunks {α : Type} (list : List α) (size : Nat) : List (List α) :=
  chunked size ((list.length + size - 1) / size) list

theorem chunked_length {α : Type} (size : Nat) :
    ∀ (n : Nat) (l : List α), (chunked size n l).length = n := by
  intro n
  induction n with
  | zero => intro l; rfl
  | succ m ih => intro l; simp [chunked, ih]

theorem chunked_mem_length_le {α : Type} (size : Nat) :
    ∀ (n : Nat) (l : List α) (c : List α), c ∈ chunked size n l → c.length ≤ size := by
  intro n
  induction n with
  | zero => intro l c hc; simp [chunked] at hc
  | succ m ih =>
    intro l c hc
    simp only [chunked, List.mem_cons] at hc
    cases hc with
    | inl h =>
      subst h
      calc (l.take size).length = min size l.length := by rw [List.length_take]
        _ ≤ size := Nat.min_le_left _ _
    | inr h => exact ih (l.drop size) c h

theorem ceil_div_zero_imp {size N : Nat} (hs : 0 < size)
    (h : (N + size - 1) / size = 0) : N = 0 := by
  by_contra hN
  have h1 : 1 ≤ N := Nat.one_le_iff_ne_zero.mpr hN
  have h2 : size ≤ N + size - 1 := by omega
  have := Nat.one_le_div_iff hs |>.mpr h2
  omega

theorem ceil_div_succ {size N n : Nat} (hs : 0 < size)
    (h : (N + size - 1) / size = n + 1) : (N - size + size - 1) / size = n := by
  have hN : 1 ≤ N := by
    by_contra hN0
    have hN0 : N = 0 := by omega
    subst hN0
    have : (0 + size - 1) / size = 0 := Nat.div_eq_of_lt (by omega)
    omega
  rcases le_or_lt N size with hle | hlt
  · have h1 : N - size = 0 := Nat.sub_eq_zero_of_le hle
    have hlt2 : N + size - 1 < 2 * size := by omega
    have hdivlt : (N + size - 1) / size < 2 := (Nat.div_lt_iff_lt_mul hs).mpr (by omega)
    have hn0 : n = 0 := by omega
    rw [h1, hn0]
    exact Nat.div_eq_of_lt (by omega)
  · have h2 : N - size + size - 1 = N - 1 := by omega
    have h3 : N + size - 1 = (N - 1) + size := by omega
    rw [h3, Nat.add_div_right _ hs] at h
    rw [h2]
    omega

theorem chunked_flatten {α : Type} (size : Nat) (hs : 0 < size) :
    ∀ (n : Nat) (l : List α), (l.length + size - 1) / size = n →
      (chunked size n l).flatten = l := by
  intro n
  induction n with
  | zero =>
    intro l h
    have hlen : l.length = 0 := ceil_div_zero_imp hs h
    have hnil : l = [] := List.length_eq_zero.mp hlen
    subst hnil
    rfl
  | succ m ih =>
    intro l h
    have hd : ((l.drop size).length + size - 1) / size = m := by
      rw [List.length_drop]
      exact ceil_div_succ hs h
    simp only [chunked, List.flatten_cons]
    rw [ih (l.drop size) hd, List.take_append_drop]

/-- Chunking correctness of `arrayToChunks` at chunk size `BATCH_MAX_WRITES`:
chunk count is the ceiling of N / 500, every chunk has at most 500 elements,
the concatenation restores the input (each element once, in order), and the
empty input yields no chunks. -/
theorem arrayToChunks_batch_correct {α : Type} (l : List α) :
    (arrayToChunks l BATCH_MAX_WRITES).length
        = (l.length + BATCH_MAX_WRITES - 1) / BATCH_MAX_WRITES
  ∧ ((arrayToChunks l BATCH_MAX_WRITES).all
        fun c => decide (c.length ≤ BATCH_MAX_WRITES)) = true
  ∧ (arrayToChunks l BATCH_MAX_WRITES).flatten = l
  ∧ arrayToChunks ([] : List α) BATCH_MAX_WRITES = [] := by
  refine ⟨chunked_length _ _ _, ?_, ?_, ?_⟩
  · rw [List.all_eq_true]
    intro c hc
    exact decide_eq_true_eq.mpr
      (chunked_mem_length_le BATCH_MAX_WRITES _ l c hc)
  · exact chunked_flatten BATCH_MAX_WRITES (by decide) _ l rfl
  · have h0 : ((([] : List α).length + BATCH_MAX_WRITES - 1) / BATCH_MAX_WRITES) = 0 := by
      norm_num [BATCH_MAX_WRITES]
    rw [arrayToChunks, h0]
    rfl

-- ---------------------------------------------------------------------------
-- QueryBuilder: src/packages/ngx/db/QueryBuilder.ts and src/unnamed/part_002
-- Both variants accumulate the same private fields; they differ only in the
-- materialization functions (`build` vs `exec`).
-- ---------------------------------------------------------------------------

/-- Argument triple of a `where` fragment. -/
structure WhereClause where
  fieldPath : String
  opStr : String
  value : Value
deriving DecidableEq, Repr

/-- Argument pair of an `orderBy` fragment. -/
structure OrderByClause where
  fieldPath : String
  directionStr : String
deriving DecidableEq, Repr

/-- Pagination cursor: the rest-parameter array of cursor values. -/
abbrev QueryCursor := List Value

/-- Accumulated fragment state of a `QueryBuilder` instance. -/
structure QueryBuilder where
  _where : List WhereClause := []
  _orderBy : List OrderByClause := []
  _leftJoins : List (String × String × String) := []
  _limit : Option Nat := none
  _limitToLast : Option Nat := none
  _startAt : Option QueryCursor := none
  _startAfter : Option QueryCursor := none
  _endAt : Option QueryCursor := none
  _endBefore : Option QueryCursor := none
deriving DecidableEq, Repr

/-- Fresh builder (`new QueryBuilder()`): every fragment list empty, every
scalar fragment undefined. -/
def QueryBuilder.empty : QueryBuilder := {}

/-- Mutation method `where` (named `where_` because `where` is reserved in
Lean): pushes a filter fragment. -/
def QueryBuilder.where_ (qb : QueryBuilder) (w : WhereClause) : QueryBuilder :=
  { qb with _where := qb._where ++ [w] }

/-- Mutation method `orderBy`: pushes an ordering fragment. -/
def QueryBuilder.orderBy (qb : QueryBuilder) (o : OrderByClause) : QueryBuilder :=
  { qb with _orderBy := qb._orderBy ++ [o] }

/-- Mutation method `leftJoin`: pushes a join instruction (side-effect only). -/
def QueryBuilder.leftJoin (qb : QueryBuilder) (j : String × String × String) : QueryBuilder :=
  { qb with _leftJoins := qb._leftJoins ++ [j] }

/-- Mutation method `limit`: overwrites the limit fragment. -/
def QueryBuilder.limit (qb : QueryBuilder) (n : Nat) : QueryBuilder :=
  { qb with _limit := some n }

/-- Mutation method `limitToLast`: overwrites the limit-to-last fragment. -/
def QueryBuilder.limitToLast (qb : QueryBuilder) (n : Nat) : QueryBuilder :=
  { qb with _limitToLast := some n }

/-- Mutation method `startAt`: overwrites the start-at cursor. -/
def QueryBuilder.startAt (qb : QueryBuilder) (c : QueryCursor) : QueryBuilder :=
  { qb with _startAt := some c }

/-- Mutation method `startAfter`: overwrites the start-after cursor. -/
def QueryBuilder.startAfter (qb : QueryBuilder) (c : QueryCursor) : QueryBuilder :=
  { qb with _startAfter := some c }

/-- Mutation method `endAt`: overwrites the end-at cursor. -/
def QueryBuilder.endAt (qb : QueryBuilder) (c : QueryCursor) : QueryBuilder :=
  { qb with _endAt := some c }

/-- Mutation method `endBefore`: overwrites the end-before cursor. -/
def QueryBuilder.endBefore (qb : QueryBuilder) (c : QueryCursor) : QueryBuilder :=
  { qb with _endBefore := some c }

/-- Native query constraints of the modular client API
(`where(...)`, `orderBy(...)`, `limit(...)`, ...). -/
inductive QueryConstraint where
  | qwhere : WhereClause → QueryConstraint
  | qorderBy : OrderByClause → QueryConstraint
  | qlimit : Nat → QueryConstraint
  | qlimitToLast : Nat → QueryConstraint
  | qstartAt : QueryCursor → QueryConstraint
  | qstartAfter : QueryCursor → QueryConstraint
  | qendAt : QueryCursor → QueryConstraint
  | qendBefore : QueryCursor → QueryConstraint
deriving DecidableEq, Repr

/-- Result of `query(ref, ...constraints)` on the client path. -/
structure ClientQuery where
  ref : String
  constraints : List QueryConstraint
deriving DecidableEq, Repr

/-- Native query value of the cloud admin API, built by method chaining;
`collectionRef r` is the unfiltered reference itself. -/
inductive CloudQuery where
  | collectionRef : String → CloudQuery
  | cwhere : CloudQuery → WhereClause → CloudQuery
  | corderBy : CloudQuery → OrderByClause → CloudQuery
  | climit : CloudQuery → Nat → CloudQuery
  | climitToLast : CloudQuery → Nat → CloudQuery
  | cstartAt : CloudQuery → QueryCursor → CloudQuery
  | cstartAfter : CloudQuery → QueryCursor → CloudQuery
  | cendAt : CloudQuery → QueryCursor → CloudQuery
  | cendBefore : CloudQuery → QueryCursor → CloudQuery
deriving DecidableEq, Repr

/-- Constraint segment for a numeric fragment, with the JS truthiness guard
`(this._limit ? [limit(this._limit)] : [])`: undefined and 0 are falsy. -/
def numSeg (mk : Nat → QueryConstraint) (l : Option Nat) : List QueryConstraint :=
  match l with
  | some n => if n = 0 then [] else [mk n]
  | none => []

/-- Constraint segment for a cursor fragment in `QueryBuilder.ts`:
the guard `(this._startAt ? [startAt(this._startAt)] : [])` tests the cursor
value itself, which is truthy whenever it was set (snapshot or array). -/
def cursorSeg (mk : QueryCursor → QueryConstraint) (c : Option QueryCursor) :
    List QueryConstraint :=
  match c with
  | some vs => [mk vs]
  | none => []

/-- Browser branch of `QueryBuilder.build` from `QueryBuilder.ts`: the
constraint array literal, spread in source order (filters, orderings, limit,
limitToLast, startAt, startAfter, endAt, endBefore), passed to `query`.
The window-undefined branch delegates to `buildQueryForCloud` below. -/
def QueryBuilder.build (qb : QueryBuilder) (ref : String) : ClientQuery :=
  { ref := ref
    constraints :=
      qb._where.map QueryConstraint.qwhere
      ++ qb._orderBy.map QueryConstraint.qorderBy
      ++ numSeg QueryConstraint.qlimit qb._limit
      ++ numSeg QueryConstraint.qlimitToLast qb._limitToLast
      ++ cursorSeg QueryConstraint.qstartAt qb._startAt
      ++ cursorSeg QueryConstraint.qstartAfter qb._startAfter
      ++ cursorSeg QueryConstraint.qendAt qb._endAt
      ++ cursorSeg QueryConstraint.qendBefore qb._endBefore }

/-- Application of an optional numeric fragment on the cloud path
(`if (this._limit) { query = query.limit(this._limit) }`). -/
def cloudNumStep (mk : CloudQuery → Nat → CloudQuery) (q : CloudQuery)
    (l : Option Nat) : CloudQuery :=
  match l with
  | some n => if n = 0 then q else mk q n
  | none => q

/-- Application of an optional cursor fragment on the cloud path; a set
cursor is truthy regardless of its contents. -/
def cloudCursorStep (mk : CloudQuery → QueryCursor → CloudQuery) (q : CloudQuery)
    (c : Option QueryCursor) : CloudQuery :=
  match c with
  | some vs => mk q vs
  | none => q

/-- Embedding of `QueryBuilder.buildQueryForCloud` from `QueryBuilder.ts`:
reduces filters, then orderings, then applies each scalar fragment if
truthy, in source order. -/
def QueryBuilder.buildQueryForCloud (qb : QueryBuilder) (ref : String) : CloudQuery :=
  let q := qb._where.foldl (fun q wh => CloudQuery.cwhere q wh) (CloudQuery.collectionRef ref)
  let q := qb._orderBy.foldl (fun q ob => CloudQuery.corderBy q ob) q
  let q := cloudNumStep CloudQuery.climit q qb._limit
  let q := cloudNumStep CloudQuery.climitToLast q qb._limitToLast
  let q := cloudCursorStep CloudQuery.cstartAt q qb._startAt
  let q := cloudCursorStep CloudQuery.cstartAfter q qb._startAfter
  let q := cloudCursorStep CloudQuery.cendAt q qb._endAt
  cloudCursorStep CloudQuery.cendBefore q qb._endBefore

/-- JavaScript runtime errors surfaced by the `exec` variant. -/
inductive JsError where
  | typeError
  | invalidArguments
deriving DecidableEq, Repr

/-- Cursor segment in the `exec` variant (src/unnamed/part_002): the guard is
`this._startAt.every((i) => !!i)`.  When the cursor was never set the field
is undefined and the property access `.every` throws a TypeError. -/
def cursorSegExec (mk : QueryCursor → QueryConstraint) (c : Option QueryCursor) :
    Except JsError (List QueryConstraint) :=
  match c with
  | none => Except.error JsError.typeError
  | some vs => Except.ok (if vs.all truthyV then [mk vs] else [])

/-- Browser branch of `QueryBuilder.exec` from src/unnamed/part_002: throws
invalid-arguments when no `queryOps` object is passed, then builds the
constraint array; each cursor guard calls `.every` on the stored cursor and
therefore throws when that cursor is undefined. -/
def QueryBuilder.exec (qb : QueryBuilder) (ref : String) (opsProvided : Bool) :
    Except JsError ClientQuery :=
  if opsProvided = false then Except.error JsError.invalidArguments else do
  let sa ← cursorSegExec QueryConstraint.qstartAt qb._startAt
  let sf ← cursorSegExec QueryConstraint.qstartAfter qb._startAfter
  let ea ← cursorSegExec QueryConstraint.qendAt qb._endAt
  let eb ← cursorSegExec QueryConstraint.qendBefore qb._endBefore
  Except.ok
    { ref := ref
      constraints :=
        qb._where.map QueryConstraint.qwhere
        ++ qb._orderBy.map QueryConstraint.qorderBy
        ++ numSeg QueryConstraint.qlimit qb._limit
        ++ numSeg QueryConstraint.qlimitToLast qb._limitToLast
        ++ sa ++ sf ++ ea ++ eb }

/-- Embedding of `execQueryForCloud` from src/unnamed/part_002 (identical in
structure to `buildQueryForCloud` of `QueryBuilder.ts`). -/
def QueryBuilder.execQueryForCloud (qb : QueryBuilder) (ref : String) : CloudQuery :=
  let q := qb._where.foldl (fun q wh => CloudQuery.cwhere q wh) (CloudQuery.collectionRef ref)
  let q := qb._orderBy.foldl (fun q ob => CloudQuery.corderBy q ob) q
  let q := cloudNumStep CloudQuery.climit q qb._limit
  let q := cloudNumStep CloudQuery.climitToLast q qb._limitToLast
  let q := cloudCursorStep CloudQuery.cstartAt q qb._startAt
  let q := cloudCursorStep CloudQuery.cstartAfter q qb._startAfter
  let q := cloudCursorStep CloudQuery.cendAt q qb._endAt
  cloudCursorStep CloudQuery.cendBefore q qb._endBefore

/-- Claim C7: the claim says a fragment-free builder materializes to the
unfiltered reference and never raises, on both backends.  The cloud paths and
the `build` client path do return the unfiltered query, but the `exec` client
path of src/unnamed/part_002 evaluates `this._startAt.every(...)` on an
undefined cursor and throws a TypeError, so the code contradicts the claim
(and the spec sentence it restates) on exactly that path: a code bug. -/
theorem exec_empty_builder_throws_on_client :
    QueryBuilder.exec QueryBuilder.empty "c" true = Except.error JsError.typeError
  ∧ QueryBuilder.execQueryForCloud QueryBuilder.empty "c" = CloudQuery.collectionRef "c"
  ∧ QueryBuilder.build QueryBuilder.empty "c" = { ref := "c", constraints := [] }
  ∧ QueryBuilder.buildQueryForCloud QueryBuilder.empty "c" = CloudQuery.collectionRef "c" := by
  refine ⟨rfl, rfl, rfl, rfl⟩

/-- Claim C8: materialization applies fragments in a fixed order independent
of the order of the mutation calls; in particular `where(a).orderBy(b).limit n`
and `orderBy(b).where(a).limit n` leave identical builder state and therefore
materialize to identical native queries on both the client and cloud paths,
from any starting builder state. -/
theorem materialization_order_independent (qb : QueryBuilder) (a : WhereClause)
    (b : OrderByClause) (n : Nat) (ref : String) :
    ((qb.where_ a).orderBy b).limit n = ((qb.orderBy b).where_ a).limit n
  ∧ QueryBuilder.build (((qb.where_ a).orderBy b).limit n) ref
      = QueryBuilder.build (((qb.orderBy b).where_ a).limit n) ref
  ∧ QueryBuilder.buildQueryForCloud (((qb.where_ a).orderBy b).limit n) ref
      = QueryBuilder.buildQueryForCloud (((qb.orderBy b).where_ a).limit n) ref := by
  exact ⟨rfl, rfl, rfl⟩

/-- Claim C10: `limit(0)` and `limitToLast(0)` materialize exactly as if the
fragment had never been set, on every materialization path (the guards test
JS truthiness, and 0 is falsy), rather than producing a zero-result query. -/
theorem limit_zero_means_no_limit (qb : QueryBuilder) (ref : String) :
    QueryBuilder.build (qb.limit 0) ref
      = QueryBuilder.build { qb with _limit := none } ref
  ∧ QueryBuilder.buildQueryForCloud (qb.limit 0) ref
      = QueryBuilder.buildQueryForCloud { qb with _limit := none } ref
  ∧ QueryBuilder.build (qb.limitToLast 0) ref
      = QueryBuilder.build { qb with _limitToLast := none } ref
  ∧ QueryBuilder.buildQueryForCloud (qb.limitToLast 0) ref
      = QueryBuilder.buildQueryForCloud { qb with _limitToLast := none } ref
  ∧ (∀ ops : Bool, QueryBuilder.exec (qb.limit 0) ref ops
      = QueryBuilder.exec { qb with _limit := none } ref ops)
  ∧ (∀ ops : Bool, QueryBuilder.exec (qb.limitToLast 0) ref ops
      = QueryBuilder.exec { qb with _limitToLast := none } ref ops)
  ∧ QueryBuilder.execQueryForCloud (qb.limit 0) ref
      = QueryBuilder.execQueryForCloud { qb with _limit := none } ref
  ∧ QueryBuilder.execQueryForCloud (qb.limitToLast 0) ref
      = QueryBuilder.execQueryForCloud { qb with _limitToLast := none } ref := by
  refine ⟨rfl, rfl, rfl, rfl, fun ops => rfl, fun ops => rfl, rfl, rfl⟩

-- ---------------------------------------------------------------------------
-- Upsert and update: src/packages/ngx/services/firestore.service.ts (current,
-- second variant in the file), src/packages/lib/functions/firestore.ts, and
-- the older cloud service src/unnamed/part_006.
-- The generated-id capability (`addDoc` / `collection().doc().id`) is
-- modelled by the parameter `genId`, the id the database would hand out;
-- `t` is the commit time resolving the server-timestamp sentinel.
-- ---------------------------------------------------------------------------

/-- Truthy destructured `id` property: `let { id, ...updata } = data` followed
by the guard `if (id)` and the template-literal use of `id`. -/
def jsId (v : Option Value) : Option String :=
  match v with
  | none => none
  | some v => if truthyV v then some (valToString v) else none

/-- Nullish assignment `updata.createdTs ??= timestamp`. -/
def ensureCreatedTs (t : Nat) (b : Body) : Body :=
  match getField b "createdTs" with
  | some _ => b
  | none => setField b "createdTs" (Value.tsv t)

/-- Persisted body of the current ngx `FirestoreService.upsert`: the payload
minus `id`, then `createdTs ??= timestamp`, then `updatedTs = timestamp`. -/
def FirestoreService.upsertPayload (t : Nat) (data : Body) : Body :=
  setField (ensureCreatedTs t (eraseField data "id")) "updatedTs" (Value.tsv t)

/-- Embedding of the current ngx `FirestoreService.upsert` (second variant of
firestore.service.ts): truthy id writes with set-merge at
`collectionPath/id` and returns it; otherwise `addDoc` creates a fresh
document at the generated id and returns that id. -/
def FirestoreService.upsert (store : Store) (genId : String) (t : Nat)
    (collectionPath : String) (data : Body) : Store × String :=
  match jsId (getField data "id") with
  | some id =>
      (setDocMerge store (collectionPath ++ "/" ++ id) (FirestoreService.upsertPayload t data), id)
  | none =>
      (storePut store (collectionPath ++ "/" ++ genId) (FirestoreService.upsertPayload t data), genId)

/-- Persisted body of `FirestoreCloudService.upsert`
(src/packages/lib/functions/firestore.ts): same stamping as the ngx variant. -/
def FirestoreCloudService.upsertPayload (t : Nat) (data : Body) : Body :=
  setField (ensureCreatedTs t (eraseField data "id")) "updatedTs" (Value.tsv t)

/-- Embedding of `FirestoreCloudService.upsert`: falsy id is replaced by a
generated one, and both branches write with set-merge at `collection/id`. -/
def FirestoreCloudService.upsert (store : Store) (genId : String) (t : Nat)
    (collection : String) (data : Body) : Store × String :=
  let id := match jsId (getField data "id") with
    | some s => s
    | none => genId
  (setDocMerge store (collection ++ "/" ++ id) (FirestoreCloudService.upsertPayload t data), id)

/-- Embedding of the older `FirestoreCloudService.upsert` from
src/unnamed/part_006: `createdTs` is assigned only inside the `if (!id)`
branch, so a with-id upsert never touches it. -/
def FirestoreCloudServiceV0.upsert (store : Store) (genId : String) (t : Nat)
    (collection : String) (data : Body) : Store × String :=
  let updata := eraseField data "id"
  match jsId (getField data "id") with
  | some id =>
      (setDocMerge store (collection ++ "/" ++ id)
        (setField updata "updatedTs" (Value.tsv t)), id)
  | none =>
      (setDocMerge store (collection ++ "/" ++ genId)
        (setField (setField updata "createdTs" (Value.tsv t)) "updatedTs" (Value.tsv t)), genId)

/-- Target and payload of a native `update` call. -/
structure UpdateOp where
  path : String
  payload : Body
deriving DecidableEq, Repr

/-- Embedding of the current ngx `FirestoreService.update`: deletes `id`
from the payload and merges `{ updatedTs }` on top, updating at `docPath`. -/
def FirestoreService.update (t : Nat) (docPath : String) (data : Body) : UpdateOp :=
  { path := docPath
    payload := mergeBody (eraseField data "id") [("updatedTs", Value.tsv t)] }

/-- Embedding of `FirestoreCloudService.update`: a plain passthrough
`this.docRef(path).update(data)` with no id stripping and no timestamp. -/
def FirestoreCloudService.update (docPath : String) (data : Body) : UpdateOp :=
  { path := docPath, payload := data }

theorem getField_upsertPayload_createdTs (t : Nat) (data : Body) :
    (getField (FirestoreService.upsertPayload t data) "createdTs").isSome = true := by
  unfold FirestoreService.upsertPayload setField getField
  rw [alookup_aset_ne _ _ _ _ (by decide)]
  cases h : getField (eraseField data "id") "createdTs" with
  | some v =>
    simp only [ensureCreatedTs, h]
    simp only [getField] at h
    simp [h]
  | none =>
    simp only [getField] at h
    simp [ensureCreatedTs, getField, setField, h, alookup_aset_self]

theorem getField_upsertPayload_updatedTs (t : Nat) (data : Body) :
    getField (FirestoreService.upsertPayload t data) "updatedTs" = some (Value.tsv t) := by
  unfold FirestoreService.upsertPayload setField getField
  exact alookup_aset_self _ _ _

/-- Claim C2, amended: the with-id branch of upsert requires a truthy
(nonempty) id.  With a truthy id the document is written with set-merge at
`collectionPath/id`, no generated id is used, and exactly that id is
returned; with an absent-or-falsy id a fresh generated id is used, the
persisted body carries both `createdTs` and `updatedTs`, and the generated
id is returned — on both the ngx service and the cloud service (whose
create branch coincides with a plain put when the generated path is fresh). -/
theorem upsert_id_policy (store : Store) (genId : String) (t : Nat)
    (col : String) (data : Body) :
    (∀ s : String, jsId (getField data "id") = some s →
      (FirestoreService.upsert store genId t col data).2 = s
      ∧ (FirestoreService.upsert store genId t col data).1
          = setDocMerge store (col ++ "/" ++ s) (FirestoreService.upsertPayload t data)
      ∧ (FirestoreCloudService.upsert store genId t col data).2 = s
      ∧ (FirestoreCloudService.upsert store genId t col data).1
          = setDocMerge store (col ++ "/" ++ s) (FirestoreCloudService.upsertPayload t data))
  ∧ (jsId (getField data "id") = none →
      (FirestoreService.upsert store genId t col data).2 = genId
      ∧ (FirestoreService.upsert store genId t col data).1
          = storePut store (col ++ "/" ++ genId) (FirestoreService.upsertPayload t data)
      ∧ (getField (FirestoreService.upsertPayload t data) "createdTs").isSome = true
      ∧ getField (FirestoreService.upsertPayload t data) "updatedTs" = some (Value.tsv t)
      ∧ (FirestoreCloudService.upsert store genId t col data).2 = genId
      ∧ (getDoc store (col ++ "/" ++ genId) = none →
          (FirestoreCloudService.upsert store genId t col data).1
            = storePut store (col ++ "/" ++ genId) (FirestoreCloudService.upsertPayload t data))) := by
  constructor
  · intro s hs
    refine ⟨?_, ?_, ?_, ?_⟩ <;>
      simp [FirestoreService.upsert, FirestoreCloudService.upsert, hs]
  · intro hn
    refine ⟨?_, ?_, getField_upsertPayload_createdTs t data,
        getField_upsertPayload_updatedTs t data, ?_, ?_⟩ <;>
      simp [FirestoreService.upsert, FirestoreCloudService.upsert, hn]
    intro hfresh
    simp [setDocMerge, hfresh]

/-- Witness for C2's amended theorem at concrete inputs: a truthy id "X" is
returned unchanged, an absent id yields the generated id "G". -/
theorem upsert_id_policy_witness :
    (FirestoreService.upsert [] "G" 0 "c" [("id", Value.str "X")]).2 = "X"
  ∧ (FirestoreService.upsert [] "G" 0 "c" [("name", Value.str "a")]).2 = "G" := by
  constructor
  · exact ((upsert_id_policy [] "G" 0 "c" [("id", Value.str "X")]).1 "X" (by decide)).1
  · exact ((upsert_id_policy [] "G" 0 "c" [("name", Value.str "a")]).2 (by decide)).1

/-- Counterexample to claim C2 as stated: the payload `{id: ""}` has an `id`
property present, yet upsert generates a fresh id, returns it instead of "",
and writes nothing at `c/`; presence is not what the code tests — truthiness
is. -/
theorem upsert_present_empty_id_refutes_claim :
    getField [("id", Value.str "")] "id" = some (Value.str "")
  ∧ (FirestoreService.upsert [] "G" 0 "c" [("id", Value.str "")]).2 = "G"
  ∧ (FirestoreService.upsert [] "G" 0 "c" [("id", Value.str "")]).2 ≠ ""
  ∧ getDoc (FirestoreService.upsert [] "G" 0 "c" [("id", Value.str "")]).1 "c/" = none := by
  decide

/-- Claim C3 is violated by the current code: with a store whose document
`c/X` carries `createdTs = tsv 0`, an upsert of `{id: "X", name: "b"}` at
commit time 1 persists `createdTs = tsv 1` through the merge — both in the
current ngx service and in the cloud service — because `createdTs ??=
timestamp` runs before the id check.  The older cloud service of
src/unnamed/part_006 preserves the stored value, matching the spec. -/
theorem upsert_overwrites_stored_createdTs :
    (getDoc (storePut [] "c/X" [("createdTs", Value.tsv 0), ("name", Value.str "old")]) "c/X").bind
        (fun b => getField b "createdTs") = some (Value.tsv 0)
  ∧ ((getDoc (FirestoreService.upsert
        (storePut [] "c/X" [("createdTs", Value.tsv 0), ("name", Value.str "old")])
        "G" 1 "c" [("id", Value.str "X"), ("name", Value.str "b")]).1 "c/X").bind
        (fun b => getField b "createdTs")) = some (Value.tsv 1)
  ∧ ((getDoc (FirestoreCloudService.upsert
        (storePut [] "c/X" [("createdTs", Value.tsv 0), ("name", Value.str "old")])
        "G" 1 "c" [("id", Value.str "X"), ("name", Value.str "b")]).1 "c/X").bind
        (fun b => getField b "createdTs")) = some (Value.tsv 1)
  ∧ ((getDoc (FirestoreCloudServiceV0.upsert
        (storePut [] "c/X" [("createdTs", Value.tsv 0), ("name", Value.str "old")])
        "G" 1 "c" [("id", Value.str "X"), ("name", Value.str "b")]).1 "c/X").bind
        (fun b => getField b "createdTs")) = some (Value.tsv 0) := by
  decide

/-- Claim C4, amended: the ngx `FirestoreService.update` persists exactly the
payload minus `id` plus a server-timestamp `updatedTs`, at the unchanged
`docPath`; `FirestoreCloudService.update` also keeps the path but persists
the payload verbatim (no id stripping, no `updatedTs`). -/
theorem update_payload_policy (t : Nat) (docPath : String) (data : Body) (k : String) :
    (FirestoreService.update t docPath data).path = docPath
  ∧ getField (FirestoreService.update t docPath data).payload "updatedTs" = some (Value.tsv t)
  ∧ getField (FirestoreService.update t docPath data).payload "id" = none
  ∧ (k ≠ "id" → k ≠ "updatedTs" →
      getField (FirestoreService.update t docPath data).payload k = getField data k)
  ∧ (FirestoreCloudService.update docPath data).path = docPath
  ∧ (FirestoreCloudService.update docPath data).payload = data := by
  refine ⟨rfl, ?_, ?_, ?_, rfl, rfl⟩
  · rw [FirestoreService.update, getField_mergeBody]
    simp [getField, alookup]
  · rw [FirestoreService.update, getField_mergeBody]
    have hov : getField [("updatedTs", Value.tsv t)] "id" = none := by
      simp [getField, alookup]
    rw [hov]
    unfold getField eraseField
    rw [alookup_aerase]
    simp
  · intro hid hup
    rw [FirestoreService.update, getField_mergeBody]
    have hov : getField [("updatedTs", Value.tsv t)] k = none := by
      have hne : ¬ "updatedTs" = k := fun hh => hup hh.symm
      simp [getField, alookup, hne]
    rw [hov]
    unfold getField eraseField
    rw [alookup_aerase, if_neg hid]

/-- Witness for C4's amended theorem at the spec's own example input. -/
theorem update_payload_policy_witness :
    getField (FirestoreService.update 0 "col/X"
        [("id", Value.str "Y"), ("name", Value.str "c")]).payload "name"
      = some (Value.str "c") := by
  have h := (update_payload_policy 0 "col/X"
      [("id", Value.str "Y"), ("name", Value.str "c")] "name").2.2.2.1
      (by decide) (by decide)
  rw [h]
  decide

/-- Counterexample to claim C4 as stated: the cloud service's update of
`col/X` with `{id: "Y", name: "c"}` persists a payload that still contains
the `id` field and carries no `updatedTs`, contradicting the claim for that
service (the path does remain `col/X`). -/
theorem cloud_update_passthrough_refutes_claim :
    (FirestoreCloudService.update "col/X" [("id", Value.str "Y"), ("name", Value.str "c")]).payload
        = [("id", Value.str "Y"), ("name", Value.str "c")]
  ∧ getField (FirestoreCloudService.update "col/X"
        [("id", Value.str "Y"), ("name", Value.str "c")]).payload "id" = some (Value.str "Y")
  ∧ getField (FirestoreCloudService.update "col/X"
        [("id", Value.str "Y"), ("name", Value.str "c")]).payload "updatedTs" = none
  ∧ (FirestoreCloudService.update "col/X"
        [("id", Value.str "Y"), ("name", Value.str "c")]).path = "col/X" := by
  decide

-- ---------------------------------------------------------------------------
-- bulkDelete: current ngx FirestoreService (always applies `qb.limit(maxSize)`)
-- and FirestoreCloudService (applies the cap only when no builder was given).
-- ---------------------------------------------------------------------------

/-- Snapshot document returned by a query: its id (the delete targets the
document reference behind it). -/
structure SDoc where
  id : String
deriving DecidableEq, Repr

/-- Execution of a materialized query against the ordered set of documents
matching its filters and orderings: a truthy `limit` fragment caps the
result size (backend semantics of `limit(n)`); `docs` plays the role of the
full ordered match set. -/
def runQueryDocs (docs : List SDoc) (qb : QueryBuilder) : List SDoc :=
  match qb._limit with
  | some n => if n = 0 then docs else docs.take n
  | none => docs

/-- Embedding of the current ngx `FirestoreService.bulkDelete`:
`qb ??= new QueryBuilder(); qb.limit(maxSize)` — the cap is applied to the
caller's builder as well — then the snapshot is chunked and each chunk's
documents are staged for deletion while their ids are collected. -/
def FirestoreService.bulkDelete (docs : List SDoc) (qb : Option QueryBuilder)
    (maxSize : Nat) : List String :=
  ((arrayToChunks (runQueryDocs docs ((qb.getD QueryBuilder.empty).limit maxSize))
      BATCH_MAX_WRITES).map (fun chunk => chunk.map SDoc.id)).flatten

/-- Embedding of `FirestoreCloudService.bulkDelete`: `if (!qb)` a fresh
builder capped at `maxSize` is used, but a caller-supplied builder is used
as-is, uncapped. -/
def FirestoreCloudService.bulkDelete (docs : List SDoc) (qb : Option QueryBuilder)
    (maxSize : Nat) : List String :=
  ((arrayToChunks
      (runQueryDocs docs
        (match qb with
         | none => QueryBuilder.empty.limit maxSize
         | some q => q))
      BATCH_MAX_WRITES).map (fun chunk => chunk.map SDoc.id)).flatten

theorem flatten_map_map {α β : Type} (f : α → β) (l : List (List α)) :
    (l.map (fun c => c.map f)).flatten = l.flatten.map f := by
  induction l with
  | nil => rfl
  | cons c rest ih =>
    rw [List.map_cons, List.flatten_cons, List.flatten_cons, List.map_append, ih]

theorem arrayToChunks_flatten {α : Type} (l : List α) :
    (arrayToChunks l BATCH_MAX_WRITES).flatten = l :=
  chunked_flatten BATCH_MAX_WRITES (by decide) _ l rfl

/-- Claim C5, amended: with the builder omitted, both services delete
exactly the ids of the first `maxSize` matching documents (so a second call
over the remainder deletes the rest), and the ngx service caps even a
caller-supplied builder; the cloud service's cap applies only when the
builder is omitted. -/
theorem bulkDelete_caps_at_maxSize (docs : List SDoc) (maxSize : Nat)
    (h : maxSize ≠ 0) :
    FirestoreService.bulkDelete docs none maxSize = (docs.take maxSize).map SDoc.id
  ∧ FirestoreCloudService.bulkDelete docs none maxSize = (docs.take maxSize).map SDoc.id
  ∧ (∀ qb : QueryBuilder,
      (FirestoreService.bulkDelete docs (some qb) maxSize).length ≤ maxSize)
  ∧ FirestoreService.bulkDelete (docs.drop maxSize) none maxSize
      = ((docs.drop maxSize).take maxSize).map SDoc.id := by
  have hrun : ∀ (ds : List SDoc) (qb : QueryBuilder),
      runQueryDocs ds (qb.limit maxSize) = ds.take maxSize := by
    intro ds qb
    have hm : runQueryDocs ds (qb.limit maxSize)
        = if maxSize = 0 then ds else ds.take maxSize := rfl
    rw [hm, if_neg h]
  refine ⟨?_, ?_, ?_, ?_⟩
  · rw [FirestoreService.bulkDelete, flatten_map_map, arrayToChunks_flatten]
    rw [show (Option.getD (none : Option QueryBuilder) QueryBuilder.empty) = QueryBuilder.empty from rfl]
    rw [hrun]
  · rw [FirestoreCloudService.bulkDelete, flatten_map_map, arrayToChunks_flatten]
    rw [hrun]
  · intro qb
    rw [FirestoreService.bulkDelete, flatten_map_map, arrayToChunks_flatten]
    rw [show (Option.getD (some qb) QueryBuilder.empty) = qb from rfl, hrun]
    rw [List.length_map, List.length_take]
    exact Nat.min_le_left _ _
  · rw [FirestoreService.bulkDelete, flatten_map_map, arrayToChunks_flatten]
    rw [show (Option.getD (none : Option QueryBuilder) QueryBuilder.empty) = QueryBuilder.empty from rfl]
    rw [hrun]

/-- Witness for C5's amended theorem: three matching documents, cap 2 — the
first call deletes the first two ids, the follow-up call over the remainder
deletes the third. -/
theorem bulkDelete_caps_at_maxSize_witness :
    FirestoreService.bulkDelete [⟨"a"⟩, ⟨"b"⟩, ⟨"c"⟩] none 2 = ["a", "b"]
  ∧ FirestoreService.bulkDelete ([⟨"a"⟩, ⟨"b"⟩, ⟨"c"⟩].drop 2) none 2 = ["c"] := by
  constructor
  · rw [(bulkDelete_caps_at_maxSize [⟨"a"⟩, ⟨"b"⟩, ⟨"c"⟩] 2 (by decide)).1]
    decide
  · rw [(bulkDelete_caps_at_maxSize [⟨"a"⟩, ⟨"b"⟩, ⟨"c"⟩] 2 (by decide)).2.2.2]
    decide

/-- Counterexample to claim C5 as stated: a cloud `bulkDelete` call with a
caller-supplied (unlimited) builder over 1001 matching documents deletes all
1001 of them in one call, exceeding `maxSize = 1000`. -/
theorem cloud_bulkDelete_exceeds_maxSize :
    1000 < (FirestoreCloudService.bulkDelete
        ((List.range 1001).map (fun i => SDoc.mk (toString i)))
        (some QueryBuilder.empty) 1000).length := by
  have h1 : FirestoreCloudService.bulkDelete
        ((List.range 1001).map (fun i => SDoc.mk (toString i)))
        (some QueryBuilder.empty) 1000
      = (((List.range 1001).map (fun i => SDoc.mk (toString i))).map SDoc.id) := by
    rw [FirestoreCloudService.bulkDelete, flatten_map_map, arrayToChunks_flatten]
    rfl
  rw [h1, List.length_map, List.length_map, List.length_range]
  omega

-- ---------------------------------------------------------------------------
-- Commit scheduling of the bulk operations.  The current ngx FirestoreService
-- and the FirestoreCloudService push every chunk's `batch.commit()` promise
-- into an array and `await Promise.all(promises)` afterwards; the first
-- (older) FirestoreService variant in firestore.service.ts instead does
-- `await batch.commit()` inside the chunk loop.
-- ---------------------------------------------------------------------------

/-- Scheduling events of a bulk operation: initiation of chunk `i`'s batch
commit, and suspension on chunk `i`'s commit result. -/
inductive BatchEv where
  | initCommit : Nat → BatchEv
  | awaitCommit : Nat → BatchEv
deriving DecidableEq, Repr

/-- Test for a commit-initiation event. -/
def isInit : BatchEv → Bool
  | BatchEv.initCommit _ => true
  | BatchEv.awaitCommit _ => false

/-- Schedule of a loop with `await batch.commit()` inside each iteration:
each chunk's commit is awaited before the next chunk's commit starts. -/
def seqCommitTrace (numChunks : Nat) : List BatchEv :=
  ((List.range numChunks).map
    (fun i => [BatchEv.initCommit i, BatchEv.awaitCommit i])).flatten

/-- Schedule of pushing every chunk's commit promise and then awaiting
`Promise.all`: all initiations happen before any suspension. -/
def parCommitTrace (numChunks : Nat) : List BatchEv :=
  (List.range numChunks).map BatchEv.initCommit
    ++ (List.range numChunks).map BatchEv.awaitCommit

/-- Predicate of claim C6 on a schedule: once the leading block of
initiations ends, no further initiation occurs — every chunk's commit is
initiated before the operation suspends on any commit result. -/
def allInitsFirst (tr : List BatchEv) : Bool :=
  (tr.dropWhile isInit).all (fun e => !(isInit e))

/-- Aggregate of `Promise.all` over the chunk commit outcomes: resolves
successfully exactly when every chunk commit did. -/
def promiseAllOk (rs : List Bool) : Bool :=
  rs.foldl (fun a b => a && b) true

/-- Commit schedule of the current ngx `FirestoreService.bulkUpsert`
(array branch): one batch per chunk of the input documents, all commits
pushed, then `Promise.all`. -/
def FirestoreService.bulkUpsertTrace (docs : List Body) : List BatchEv :=
  parCommitTrace (arrayToChunks docs BATCH_MAX_WRITES).length

/-- Commit outcome of the current ngx `FirestoreService.bulkUpsert` given
each chunk commit's outcome. -/
def FirestoreService.bulkUpsertResult (docs : List Body) (commitOk : Nat → Bool) : Bool :=
  promiseAllOk ((List.range (arrayToChunks docs BATCH_MAX_WRITES).length).map commitOk)

/-- Commit schedule of `FirestoreCloudService.bulkUpsert` (array branch):
same promise-array-then-`Promise.all` shape. -/
def FirestoreCloudService.bulkUpsertTrace (docs : List Body) : List BatchEv :=
  parCommitTrace (arrayToChunks docs BATCH_MAX_WRITES).length

/-- Commit schedule of the current ngx `FirestoreService.bulkDelete` over
the snapshot's documents. -/
def FirestoreService.bulkDeleteTrace (snapshot : List SDoc) : List BatchEv :=
  parCommitTrace (arrayToChunks snapshot BATCH_MAX_WRITES).length

/-- Commit schedule of `FirestoreCloudService.bulkDelete` over the
snapshot's documents. -/
def FirestoreCloudService.bulkDeleteTrace (snapshot : List SDoc) : List BatchEv :=
  parCommitTrace (arrayToChunks snapshot BATCH_MAX_WRITES).length

/-- Commit schedule of the older `FirestoreService.bulkUpsert` (first
variant in firestore.service.ts, lines 127-150): `await batch.commit()`
runs inside the chunk loop, so commits are strictly sequential. -/
def FirestoreServiceV1.bulkUpsertTrace (docs : List Body) : List BatchEv :=
  seqCommitTrace (arrayToChunks docs BATCH_MAX_WRITES).length

theorem allInitsFirst_of_split (a b : List BatchEv)
    (ha : ∀ x ∈ a, isInit x = true) (hb : ∀ x ∈ b, isInit x = false) :
    allInitsFirst (a ++ b) = true := by
  unfold allInitsFirst
  have hdw : (a ++ b).dropWhile isInit = b.dropWhile isInit := by
    induction a with
    | nil => simp
    | cons x xs ih =>
      have hx : isInit x = true := ha x (by simp)
      rw [List.cons_append, List.dropWhile_cons]
      simp only [hx, if_true]
      exact ih (fun y hy => ha y (by simp [hy]))
  rw [hdw]
  have hdb : b.dropWhile isInit = b := by
    cases b with
    | nil => rfl
    | cons x xs =>
      have hx := hb x (by simp)
      rw [List.dropWhile_cons]
      simp [hx]
  rw [hdb, List.all_eq_true]
  intro e he
  simp [hb e he]

theorem allInitsFirst_par (n : Nat) : allInitsFirst (parCommitTrace n) = true := by
  apply allInitsFirst_of_split
  · intro x hx
    obtain ⟨i, hi, rfl⟩ := List.mem_map.mp hx
    rfl
  · intro x hx
    obtain ⟨i, hi, rfl⟩ := List.mem_map.mp hx
    rfl

theorem filter_awaits_map_init (l : List Nat) :
    ((l.map BatchEv.initCommit).filter (fun e => !(isInit e))) = [] := by
  induction l with
  | nil => rfl
  | cons x xs ih => simp [List.filter_cons, isInit, ih]

theorem filter_awaits_map_await (l : List Nat) :
    ((l.map BatchEv.awaitCommit).filter (fun e => !(isInit e)))
      = l.map BatchEv.awaitCommit := by
  induction l with
  | nil => rfl
  | cons x xs ih => simp [List.filter_cons, isInit, ih]

theorem parCommitTrace_await_count (n : Nat) :
    ((parCommitTrace n).filter (fun e => !(isInit e))).length = n := by
  unfold parCommitTrace
  rw [List.filter_append, filter_awaits_map_init, filter_awaits_map_await]
  simp

theorem foldl_and_eq (l : List Bool) :
    ∀ acc : Bool, l.foldl (fun a b => a && b) acc = (acc && l.all (fun b => b)) := by
  induction l with
  | nil => intro acc; simp
  | cons b rest ih =>
    intro acc
    rw [List.foldl_cons, ih, List.all_cons, ← Bool.and_assoc]

theorem promiseAllOk_iff (l : List Bool) :
    promiseAllOk l = true ↔ ∀ b ∈ l, b = true := by
  unfold promiseAllOk
  rw [foldl_and_eq]
  simp [List.all_eq_true]

/-- Claim C6, amended: the current ngx service's bulkUpsert/bulkDelete and
the cloud service's bulkUpsert/bulkDelete initiate every chunk's commit
before suspending on any, suspend once per chunk (so the operation resolves
only after every commit resolved), and resolve successfully exactly when
every chunk commit succeeded; the older variant-1 ngx bulkUpsert instead
awaits each chunk's commit before initiating the next. -/
theorem bulk_commits_concurrent (docs : List Body) (snapshot : List SDoc)
    (commitOk : Nat → Bool) :
    allInitsFirst (FirestoreService.bulkUpsertTrace docs) = true
  ∧ allInitsFirst (FirestoreCloudService.bulkUpsertTrace docs) = true
  ∧ allInitsFirst (FirestoreService.bulkDeleteTrace snapshot) = true
  ∧ allInitsFirst (FirestoreCloudService.bulkDeleteTrace snapshot) = true
  ∧ ((FirestoreService.bulkUpsertTrace docs).filter (fun e => !(isInit e))).length
      = (arrayToChunks docs BATCH_MAX_WRITES).length
  ∧ ((FirestoreService.bulkDeleteTrace snapshot).filter (fun e => !(isInit e))).length
      = (arrayToChunks snapshot BATCH_MAX_WRITES).length
  ∧ (FirestoreService.bulkUpsertResult docs commitOk = true ↔
      ∀ i, i < (arrayToChunks docs BATCH_MAX_WRITES).length → commitOk i = true) := by
  refine ⟨allInitsFirst_par _, allInitsFirst_par _, allInitsFirst_par _,
    allInitsFirst_par _, parCommitTrace_await_count _, parCommitTrace_await_count _, ?_⟩
  unfold FirestoreService.bulkUpsertResult
  rw [promiseAllOk_iff]
  constructor
  · intro h i hi
    exact h _ (List.mem_map_of_mem _ (List.mem_range.mpr hi))
  · intro h b hb
    obtain ⟨i, hi, rfl⟩ := List.mem_map.mp hb
    exact h i (List.mem_range.mp hi)

/-- Witness for C6's amended theorem at a concrete input. -/
theorem bulk_commits_concurrent_witness :
    allInitsFirst (FirestoreService.bulkUpsertTrace (List.replicate 3 ([] : Body))) = true :=
  (bulk_commits_concurrent (List.replicate 3 ([] : Body)) [] (fun _ => true)).1

/-- Counterexample to claim C6 as stated: with 501 input documents (two
chunks), the older variant-1 ngx `bulkUpsert` awaits chunk 0's commit before
initiating chunk 1's, so not every commit is initiated before the operation
first suspends. -/
theorem v1_bulkUpsert_commits_sequential :
    allInitsFirst (FirestoreServiceV1.bulkUpsertTrace (List.replicate 501 ([] : Body))) = false := by
  have hn : (arrayToChunks (List.replicate 501 ([] : Body)) BATCH_MAX_WRITES).length = 2 := by
    rw [arrayToChunks, chunked_length]
    norm_num [BATCH_MAX_WRITES]
  unfold FirestoreServiceV1.bulkUpsertTrace
  rw [hn]
  decide

-- ---------------------------------------------------------------------------
-- Left join: the module-level `leftJoin` helper of firestore.service.ts
-- (current variant) and src/unnamed/part_003.
-- ---------------------------------------------------------------------------

/-- Error raised by the join helper. -/
inductive JoinError where
  | invariantViolation
deriving DecidableEq, Repr

/-- Join operator value produced once the distinct-alias check passed. -/
structure JoinOp where
  key : String
  collection : String
  aliasField : String
deriving DecidableEq, Repr

/-- Embedding of the `leftJoin` helper's creation phase: the check
`if (key === alias) throw Error(...)` runs immediately, before the returned
observable operator — and hence any fetch — exists. -/
def leftJoin (key collection aliasField : String) : Except JoinError JoinOp :=
  if key = aliasField then Except.error JoinError.invariantViolation
  else Except.ok { key := key, collection := collection, aliasField := aliasField }

/-- Truthiness of the foreign-key field of a row (`.filter((i) => i[key])`). -/
def rowHasKey (key : String) (r : Body) : Bool :=
  match getField r key with
  | some v => truthyV v
  | none => false

/-- Execution of a created join operator over an emitted list of rows:
fetches `collection/<i[key]>` for every row with a truthy key and pairs each
row with the document assigned under the alias field (rows without the key
are left untouched).  Returns the performed fetch paths and the joined rows. -/
def runLeftJoin (op : JoinOp) (fetch : String → Option Body) (rows : List Body) :
    List String × List (Body × Option Body) :=
  ((rows.filter (rowHasKey op.key)).map
      (fun r => op.collection ++ "/" ++ valToString ((getField r op.key).getD (Value.str ""))),
   rows.map (fun r =>
     if rowHasKey op.key r then
       (r, fetch (op.collection ++ "/" ++ valToString ((getField r op.key).getD (Value.str ""))))
     else (r, none)))

/-- Full application of the join: creation followed, only on success, by
execution.  A failed creation performs no fetch at all. -/
def leftJoinApply (key collection aliasField : String) (fetch : String → Option Body)
    (rows : List Body) : List String × Except JoinError (List (Body × Option Body)) :=
  match leftJoin key collection aliasField with
  | Except.error e => ([], Except.error e)
  | Except.ok op => ((runLeftJoin op fetch rows).1, Except.ok (runLeftJoin op fetch rows).2)

/-- Claim C9: a join whose foreign-key field equals its alias field fails
immediately with the invariant-violation error and performs no fetch, for
every row set; a join with distinct field names never raises that error. -/
theorem leftJoin_distinct_alias (key collection aliasField : String)
    (fetch : String → Option Body) (rows : List Body) :
    (key = aliasField →
      leftJoinApply key collection aliasField fetch rows
        = ([], Except.error JoinError.invariantViolation))
  ∧ (key ≠ aliasField →
      leftJoinApply key collection aliasField fetch rows
        = ((runLeftJoin ⟨key, collection, aliasField⟩ fetch rows).1,
           Except.ok (runLeftJoin ⟨key, collection, aliasField⟩ fetch rows).2)) := by
  constructor
  · intro h
    simp [leftJoinApply, leftJoin, h]
  · intro h
    simp [leftJoinApply, leftJoin, h]

/-- Witness for C9 at the spec's own example: the self-aliased join fails
fast with no fetches; the distinct-alias join succeeds. -/
theorem leftJoin_distinct_alias_witness :
    leftJoinApply "companyId" "companies" "companyId" (fun _ => none) []
        = ([], Except.error JoinError.invariantViolation)
  ∧ leftJoinApply "companyId" "companies" "company" (fun _ => none) []
        = ([], Except.ok []) := by
  constructor
  · exact (leftJoin_distinct_alias "companyId" "companies" "companyId"
      (fun _ => none) []).1 rfl
  · exact ((leftJoin_distinct_alias "companyId" "companies" "company"
      (fun _ => none) []).2 (by decide)).trans rfl
